import Mathlib

/-!
# Verification of the AsyncPool repository

A shallow embedding of the `AsyncPool` class (src/unnamed/part_001, the copy
with timer instrumentation, which agrees with the duplicated copies modulo the
`"eagar"`/`"eager"` spelling) and of the `WorkList` drainer (src/src/example.ts).

Modelling conventions:

* A promise's *eventual* settlement is a `Settle α`: either `.value v`
  (fulfilled) or `.error e` (rejected).  A promise's *instantaneous* observable
  status is a `PromiseView α := Option (Settle α)` where `none` means the
  promise is still pending at the instant of observation (in particular an
  operation that never settles is observed as `none` at every instant).
* The underlying operation handed to `submit`/`wrapTaskWithIndex` is summarised
  by its eventual outcome `TaskOutcome` (`succeeds` or `fails reason`).
* `Promise.any (this.pool)` is a scheduler/environment choice: `submit` takes
  the settlement of that race as an argument `anyRes`, and the predicate
  `AnyResult pool anyRes` captures exactly the settlements JavaScript's
  `Promise.any` can produce over that array: it fulfils with the value of some
  member that fulfils, and it rejects (with an `AggregateError`) precisely when
  every member rejects.
* Side effects on the pool object (the `errors` sink, the timer `counter`) are
  threaded through an explicit `PoolState`.
* The cooperative single-threaded drainer `WorkList.work` is embedded further
  below as a deterministic fuel-based simulation.
-/

/-- Error values (`reason`s of rejected promises).  JavaScript reasons are
`any`; a `String` payload suffices for the claims. -/
abbrev Err := String

/-- The reason `Promise.any` rejects with when every member of the array
rejects. -/
def aggregateError : Err := "AggregateError: All promises were rejected"

/-- Settlement of a promise: fulfilled with a value or rejected with a
reason. -/
inductive Settle (α : Type) where
  | value (v : α)
  | error (e : Err)
deriving DecidableEq, Repr

/-- Instantaneous observable status of a promise: `none` while it is pending,
`some s` once it has settled with `s`. -/
abbrev PromiseView (α : Type) := Option (Settle α)

/-- Outcome of `Promise.race([p, t])` where `t` is the fresh sentinel object of
`AsyncPool.GetState`: the sentinel (an already-available plain value) wins iff
`p` has not settled; otherwise `p`'s own settlement surfaces (an
already-settled promise placed first in the array wins the race). -/
inductive RaceOutcome (α : Type) where
  | sentinelWon
  | promiseValue (v : α)
  | promiseError (e : Err)
deriving DecidableEq, Repr

/-- The race `Promise.race([p, t])` of `AsyncPool.GetState`, as a function of
`p`'s instantaneous status. -/
def raceWithSentinel {α : Type} (p : PromiseView α) : RaceOutcome α :=
  match p with
  | none => .sentinelWon
  | some (.value v) => .promiseValue v
  | some (.error e) => .promiseError e

/-- Embeds `AsyncPool.GetState`: `Promise.race([p, t]).then(v => v === t ? "pending" :
"fulfilled", () => "rejected")`.  A pure observation: it does not consume or
alter `p`'s outcome. -/
def GetState {α : Type} (p : PromiseView α) : String :=
  match raceWithSentinel p with
  | .sentinelWon => "pending"
  | .promiseValue _ => "fulfilled"
  | .promiseError _ => "rejected"

/-- The error strategy of the pool (`"eager" | "lazy"`, default `"lazy"`). -/
inductive Strategy where
  | eager
  | lazy
deriving DecidableEq, Repr

/-- Eventual outcome of the underlying operation `fn(...args)` passed to
`submit`. -/
inductive TaskOutcome where
  | succeeds
  | fails (reason : Err)
deriving DecidableEq, Repr

/-- The mutable fields of an `AsyncPool` instance.  `pool` holds, for each
slot, the *eventual* settlement of the wrapped handle stored there; `start` is
the timer start timestamp (`process.hrtime()` abstracted to a `Nat`). -/
structure PoolState where
  maxWorkers : Nat
  errorStrategy : Strategy
  pool : List (Settle Nat) := []
  errors : List Err := []
  counter : Nat := 0
  start : Option Nat := none
  count : Bool := false
  closed : Bool := false
deriving DecidableEq, Repr

/-- A freshly constructed pool: `new AsyncPool(maxWorkers, errorStrategy)`. -/
def PoolState.mk0 (maxWorkers : Nat) (errorStrategy : Strategy) : PoolState :=
  { maxWorkers := maxWorkers, errorStrategy := errorStrategy }

/-- Embeds `AsyncPool.wrapTaskWithIndex(index, fn, ...args)`: produces the eventual
settlement of the wrapped handle, together with the pool state after the
handle's settlement-time side effects (`errors.push`, counter increment) have
run.  The source success callback returns `index`; the failure callback pushes
the reason (lazy) or rethrows (eager), then — only on the path that did not
throw — increments the counter when the timer is running and returns
`index`. -/
def wrapTaskWithIndex (s : PoolState) (index : Nat) (outcome : TaskOutcome) :
    Settle Nat × PoolState :=
  match outcome with
  | .succeeds => (.value index, s)
  | .fails reason =>
    match s.errorStrategy with
    | .lazy =>
      let s₁ := { s with errors := s.errors ++ [reason] }
      let s₂ := if s₁.count then { s₁ with counter := s₁.counter + 1 } else s₁
      (.value index, s₂)
    | .eager => (.error reason, s)

/-- Embeds `AsyncPool.getVacantIndex()`: `pool.length` while the array is still
filling, `null` once it holds `maxWorkers` handles. -/
def getVacantIndex (s : PoolState) : Option Nat :=
  if s.pool.length < s.maxWorkers then some s.pool.length else none

/-- The settlements JavaScript's `Promise.any(pool)` can produce: it fulfils
with the value of some member that (eventually) fulfils — which member wins is
real-time nondeterminism — and it rejects with an `AggregateError` exactly when
no member fulfils. -/
inductive AnyResult : List (Settle Nat) → Settle Nat → Prop where
  | fulfilled {pool : List (Settle Nat)} {i : Nat} {v : Nat}
      (h : pool[i]? = some (.value v)) : AnyResult pool (.value v)
  | allRejected {pool : List (Settle Nat)}
      (h : ∀ x ∈ pool, ∀ v : Nat, x ≠ Settle.value v) :
      AnyResult pool (.error aggregateError)

/-- Embeds `AsyncPool.submit(fn, ...args)`.  Here `outcome` is the eventual outcome of
`fn(...args)`; `anyRes` is the settlement of the `await Promise.any(this.pool)`
performed on the full-pool path (constrained by `AnyResult` in the theorems; it
is ignored on the vacant path, which performs no await).  If that race rejects,
the `await` rethrows out of `submit`. -/
def submit (s : PoolState) (outcome : TaskOutcome) (anyRes : Settle Nat) :
    Except Err PoolState :=
  match getVacantIndex s with
  | some index =>
    let w := wrapTaskWithIndex s index outcome
    .ok { w.2 with pool := w.2.pool ++ [w.1] }
  | none =>
    match anyRes with
    | .value returnIndex =>
      let w := wrapTaskWithIndex s returnIndex outcome
      .ok { w.2 with pool := w.2.pool.set returnIndex w.1 }
    | .error e => .error e

/-- A sequence of `submit` calls, each summarised by the submitted operation's
eventual outcome and the settlement of the full-pool race (ignored on vacant
submits). -/
def runSubmits (s : PoolState) : List (TaskOutcome × Settle Nat) → Except Err PoolState
  | [] => .ok s
  | (o, r) :: rest =>
    match submit s o r with
    | .ok s₁ => runSubmits s₁ rest
    | .error e => .error e

/-- The `hasPending` closure of `AsyncPool.ConcreteAll`: scan the array
sequentially and report whether some entry is observed `"pending"`.  The
argument is the instantaneous view of the (aliased, mutable) promise array at
the time of the scan. -/
def hasPendingView (view : List (PromiseView Nat)) : Bool :=
  view.any fun p => GetState p == "pending"

/-- Embeds `AsyncPool.ConcreteAll(promises)`: `while (await hasPending()) { await
Promise.all(promises) }`.  Each `Promise.all` barrier is a suspension during
which the aliased array may be mutated, so the loop is driven by the sequence
of views observed by the successive scans: the first scan sees `views[0]`, and
after the i-th barrier the next scan sees `views[i+1]`.  The run resolves,
returning the view whose scan found nothing pending, or is still looping when
the observed views run out (`none`). -/
def concreteAllRun : List (List (PromiseView Nat)) → Option (List (PromiseView Nat))
  | [] => none
  | v :: vs => if hasPendingView v then concreteAllRun vs else some v

/-- Embeds `AsyncPool.close()`: `await ConcreteAll(this.pool); this.closed = true`.
If the convergence wait resolves, the closed flag is set; otherwise `close`
never resolves and the state is not updated. -/
def close (s : PoolState) (views : List (List (PromiseView Nat))) : Option PoolState :=
  match concreteAllRun views with
  | some _ => some { s with closed := true }
  | none => none

/-- Embeds `AsyncPool.isWorking()`: scan the pool's current view for a pending
task. -/
def isWorking (view : List (PromiseView Nat)) : Bool :=
  view.any fun p => GetState p == "pending"

/-- Result of `AsyncPool.getErrors()`: either a returned array (with a flag
recording whether the eager-strategy `console.warn` diagnostic was emitted on
the way) or a thrown `EvalError`. -/
inductive GetErrorsResult where
  | ret (warned : Bool) (errs : List Err)
  | usageError (msg : String)
deriving DecidableEq, Repr

/-- Embeds `AsyncPool.getErrors()`: eager strategy warns and returns `[]` (before any
look at `closed`); lazy strategy returns the sink once closed and otherwise
throws an `EvalError`. -/
def getErrors (s : PoolState) : GetErrorsResult :=
  if s.errorStrategy = .eager then
    .ret true []
  else if s.closed then
    .ret false s.errors
  else
    .usageError "Cannot sum up errors in unclosed pools. Call close() first."

/-- Embeds `AsyncPool.startTimer()`: warns (second component `true`) when called while
the timer is already running, then sets `count` and refreshes the start
timestamp (`now` abstracts `process.hrtime()`). -/
def startTimer (s : PoolState) (now : Nat) : PoolState × Bool :=
  ({ s with count := true, start := some now }, s.count)

/-- Embeds `AsyncPool.endTimer(precision)`: throws when the timer is not running;
otherwise reports the completed-task counter (second component; the elapsed
time and rate are derived console output) and resets the timer state. -/
def endTimer (s : PoolState) : Except Err (PoolState × Nat) :=
  if s.count = false then
    .error "Cannot call endTimer before the timer is started"
  else
    .ok ({ s with start := none, count := false, counter := 0 }, s.counter)

/-- Slot-index invariant of the pool array: the handle stored at slot `i` was
wrapped with index `i`, so if it fulfils, it fulfils with `i`. -/
def poolInv (s : PoolState) : Prop :=
  ∀ (i v : Nat), s.pool[i]? = some (Settle.value v) → v = i

/-!
## The `WorkList` drainer (src/src/example.ts)

`WorkList.work` is cooperative single-threaded code: in-flight tasks make
progress only while the drainer is suspended on a *timer*-backed await (the
`sleep(10)` spin and the `Promise.all` barrier inside `close`; `await` on an
already-settled promise only runs microtasks, during which `setTimeout`-driven
tasks cannot settle).  The simulation therefore advances a discrete timer clock
(`tick`) at exactly those suspension points.  Each in-flight slot carries the
number of remaining ticks until its task settles and the items the task pushes
onto the shared work list when it completes; the pool is constructed with the
default `"lazy"` strategy, under which a handle at slot `i` settles to `i`.
The worker function `fn` is summarised by `job : T → Nat × List T` (duration in
ticks, items pushed on completion); the simulated tasks settle successfully,
matching the scenarios of the claims.  `falsy : T → Bool` is JavaScript
falsiness of items (`!item`).
-/

/-- An occupied slot of the drainer's pool: still pending with `remaining > 0`
ticks to go (completing will push `pushes` and fulfil with `index`), or already
settled. -/
inductive SlotSim (T : Type) where
  | pending (remaining : Nat) (pushes : List T) (index : Nat)
  | settled (res : Settle Nat)
deriving DecidableEq, Repr

/-- Instantaneous promise view of a simulated slot. -/
def viewSlot {T : Type} : SlotSim T → PromiseView Nat
  | .pending _ _ _ => none
  | .settled r => some r

/-- State of a `WorkList` instance together with its inner `AsyncPool`. -/
structure WQState (T : Type) where
  workList : List T
  pool : List (SlotSim T)
  maxWorkers : Nat
  closed : Bool := false
deriving DecidableEq, Repr

/-- Advance every pending slot by one tick; slots reaching zero settle (in
array order), fulfilling with their slot index, and report the items their
completion pushes. -/
def tickPool {T : Type} : List (SlotSim T) → List (SlotSim T) × List T
  | [] => ([], [])
  | s :: rest =>
    let r := tickPool rest
    match s with
    | .pending remaining pushes index =>
      if remaining ≤ 1 then (.settled (.value index) :: r.1, pushes ++ r.2)
      else (.pending (remaining - 1) pushes index :: r.1, r.2)
    | .settled x => (.settled x :: r.1, r.2)

/-- One timer tick of the simulation: tasks due now settle and append their
pushed items to the shared work list. -/
def tick {T : Type} (st : WQState T) : WQState T :=
  let r := tickPool st.pool
  { st with pool := r.1, workList := st.workList ++ r.2 }

/-- Embeds `AsyncPool.isWorking()` applied to the simulated pool: scan for a slot
whose promise view is pending. -/
def isWorkingSim {T : Type} (pool : List (SlotSim T)) : Bool :=
  pool.any fun t => GetState (viewSlot t) == "pending"

/-- The value of the first (in array order) already-fulfilled member of the
pool — the settlement `Promise.any` produces when a fulfilled member already
exists at the time of the call. -/
def firstFulfilled {T : Type} : List (SlotSim T) → Option Nat
  | [] => none
  | .settled (.value v) :: _ => some v
  | _ :: rest => firstFulfilled rest

/-- Embeds the `await Promise.any(this.pool)` inside `submit` on a full pool: resolve with
the first fulfilled member, waiting (timer ticks) until one exists.  `none`
when the race never yields a winner within the fuel. -/
def promiseAnySim {T : Type} : Nat → WQState T → Option (Nat × WQState T)
  | 0, _ => none
  | fuel + 1, st =>
    match firstFulfilled st.pool with
    | some v => some (v, st)
    | none => promiseAnySim fuel (tick st)

/-- One iteration of the `while` body of `WorkList.work`, entered with the
guard already true: `pop` the most recently pushed item; a missing or falsy
item takes the `sleep(10)`-and-continue path (one timer tick); otherwise the
item is submitted to the pool (`submit` pushes a fresh pending slot while the
pool is filling, and on a full pool awaits `Promise.any` and replaces the
winner's slot).  Returns the state after the iteration and whether an item was
submitted. -/
def workBody {T : Type} (job : T → Nat × List T) (falsy : T → Bool)
    (anyFuel : Nat) (st : WQState T) : Option (WQState T × Bool) :=
  match st.workList.getLast? with
  | none => some (tick st, false)
  | some item =>
    let st₀ := { st with workList := st.workList.dropLast }
    if falsy item then some (tick st₀, false)
    else
      let j := job item
      if st₀.pool.length < st₀.maxWorkers then
        some ({ st₀ with pool := st₀.pool ++ [.pending j.1 j.2 st₀.pool.length] }, true)
      else
        match promiseAnySim anyFuel st₀ with
        | none => none
        | some (w, st₁) =>
          some ({ st₁ with pool := st₁.pool.set w (.pending j.1 j.2 w) }, true)

/-- Embeds `AsyncPool.close()` as reached from `work`: the convergence wait of
`ConcreteAll` re-scans after each `Promise.all` barrier (a timer suspension),
then sets the closed flag. -/
def closeSim {T : Type} : Nat → WQState T → Option (WQState T)
  | 0, st =>
    if isWorkingSim st.pool then none else some { st with closed := true }
  | fuel + 1, st =>
    if isWorkingSim st.pool then closeSim fuel (tick st)
    else some { st with closed := true }

/-- Embeds `WorkList.work(fn)`: loop while the work list is nonempty or the pool
reports work in flight; on exit, close the pool.  Returns the final state and
the number of items submitted to the pool, or `none` when the fuel runs
out. -/
def workLoop {T : Type} (job : T → Nat × List T) (falsy : T → Bool)
    (anyFuel : Nat) : Nat → WQState T → Nat → Option (WQState T × Nat)
  | 0, _, _ => none
  | fuel + 1, st, processed =>
    if st.workList.length > 0 ∨ isWorkingSim st.pool then
      match workBody job falsy anyFuel st with
      | none => none
      | some (st₁, submitted) =>
        workLoop job falsy anyFuel fuel st₁
          (processed + if submitted then 1 else 0)
    else
      match closeSim anyFuel st with
      | some stc => some (stc, processed)
      | none => none

/-- Embeds `new WorkList(maxWorkers, ...items)`: initial items pushed, empty pool. -/
def WQState.init {T : Type} (maxWorkers : Nat) (items : List T) : WQState T :=
  { workList := items, pool := [], maxWorkers := maxWorkers }

/-- Items of the scenario of §8: processing `A` pushes `B`; processing `B`
pushes nothing. -/
inductive ScItem where
  | A
  | B
deriving DecidableEq, Repr

/-- Worker semantics of the scenario: each task takes one timer tick; `A`
pushes `B` on completion, `B` pushes nothing. -/
def scenarioJob : ScItem → Nat × List ScItem
  | .A => (1, [.B])
  | .B => (1, [])

/-- Scenario items are ordinary objects: never falsy. -/
def scenarioFalsy : ScItem → Bool := fun _ => false

/-!
## Helper lemmas
-/

theorem wrap_preserves_pool (s : PoolState) (i : Nat) (o : TaskOutcome) :
    (wrapTaskWithIndex s i o).2.pool = s.pool := by
  rcases o with _ | reason
  · rfl
  · rcases hstr : s.errorStrategy with _ | _ <;>
      simp only [wrapTaskWithIndex, hstr] <;> split <;> rfl

theorem wrap_preserves_maxWorkers (s : PoolState) (i : Nat) (o : TaskOutcome) :
    (wrapTaskWithIndex s i o).2.maxWorkers = s.maxWorkers := by
  rcases o with _ | reason
  · rfl
  · rcases hstr : s.errorStrategy with _ | _ <;>
      simp only [wrapTaskWithIndex, hstr] <;> split <;> rfl

theorem wrap_preserves_closed (s : PoolState) (i : Nat) (o : TaskOutcome) :
    (wrapTaskWithIndex s i o).2.closed = s.closed := by
  rcases o with _ | reason
  · rfl
  · rcases hstr : s.errorStrategy with _ | _ <;>
      simp only [wrapTaskWithIndex, hstr] <;> split <;> rfl

theorem wrap_succeeds (s : PoolState) (i : Nat) :
    wrapTaskWithIndex s i .succeeds = (.value i, s) := rfl

theorem submit_vacant {s : PoolState} (o : TaskOutcome) (r : Settle Nat)
    (h : s.pool.length < s.maxWorkers) :
    submit s o r =
      .ok { (wrapTaskWithIndex s s.pool.length o).2 with
            pool := s.pool ++ [(wrapTaskWithIndex s s.pool.length o).1] } := by
  simp only [submit, getVacantIndex, if_pos h]
  rw [wrap_preserves_pool]

theorem submit_full {s : PoolState} (o : TaskOutcome) (w : Nat)
    (h : ¬ s.pool.length < s.maxWorkers) :
    submit s o (.value w) =
      .ok { (wrapTaskWithIndex s w o).2 with
            pool := s.pool.set w (wrapTaskWithIndex s w o).1 } := by
  simp only [submit, getVacantIndex, if_neg h]
  rw [wrap_preserves_pool]

theorem submit_full_error {s : PoolState} (o : TaskOutcome) (e : Err)
    (h : ¬ s.pool.length < s.maxWorkers) :
    submit s o (.error e) = .error e := by
  simp only [submit, getVacantIndex, if_neg h]

/-- Lemma: `submit` preserves `maxWorkers` and keeps the pool length within bound. -/
theorem submit_ok_invariant {s s₁ : PoolState} {o : TaskOutcome} {r : Settle Nat}
    (h : submit s o r = .ok s₁) (hle : s.pool.length ≤ s.maxWorkers) :
    s₁.maxWorkers = s.maxWorkers ∧ s₁.pool.length ≤ s.maxWorkers := by
  by_cases hv : s.pool.length < s.maxWorkers
  · rw [submit_vacant o r hv] at h
    cases h
    constructor
    · exact wrap_preserves_maxWorkers ..
    · simpa using hv
  · rcases r with w | e
    · rw [submit_full o w hv] at h
      cases h
      constructor
      · exact wrap_preserves_maxWorkers ..
      · simpa using hle
    · rw [submit_full_error o e hv] at h
      cases h

/-!
## Claims
-/

/-- C8: the state poller classifies an operation without consuming or altering
its outcome: an operation that never settles (pending at every instant, view
`none`) is reported `"pending"`; one that has already succeeded is reported
`"fulfilled"`; one that has already failed is reported `"rejected"` (and
`GetState` is a pure function of the observed view, so the outcome is not
disturbed). -/
theorem C8_GetState_classifies :
    (∀ α : Type, GetState (α := α) none = "pending") ∧
    (∀ (α : Type) (v : α), GetState (some (Settle.value v)) = "fulfilled") ∧
    (∀ (α : Type) (e : Err), GetState (α := α) (some (Settle.error e)) = "rejected") :=
  ⟨fun _ => rfl, fun _ _ => rfl, fun _ _ => rfl⟩

/-- C3: the wrapping contract of `wrapTaskWithIndex` at slot `i`: success
resolves the handle to `i` (with no side effect); failure under the lazy
strategy appends the reason to the error sink and still resolves to `i`;
failure under the eager strategy re-raises the reason instead of resolving to
an index. -/
theorem C3_wrap_contract :
    (∀ (s : PoolState) (i : Nat), wrapTaskWithIndex s i .succeeds = (.value i, s)) ∧
    (∀ (s : PoolState) (i : Nat) (reason : Err), s.errorStrategy = .lazy →
      (wrapTaskWithIndex s i (.fails reason)).1 = .value i ∧
      (wrapTaskWithIndex s i (.fails reason)).2.errors = s.errors ++ [reason]) ∧
    (∀ (s : PoolState) (i : Nat) (reason : Err), s.errorStrategy = .eager →
      wrapTaskWithIndex s i (.fails reason) = (.error reason, s)) := by
  refine ⟨fun s i => rfl, fun s i reason hstr => ?_, fun s i reason hstr => ?_⟩
  · constructor
    · simp only [wrapTaskWithIndex, hstr]
    · simp only [wrapTaskWithIndex, hstr]
      split <;> rfl
  · simp only [wrapTaskWithIndex, hstr]

/-- Witness for C3 at a concrete pool. -/
theorem C3_wrap_contract_witness :
    (wrapTaskWithIndex (PoolState.mk0 2 .lazy) 0 (.fails "boom")).1 = Settle.value 0 ∧
    (wrapTaskWithIndex (PoolState.mk0 2 .lazy) 0 (.fails "boom")).2.errors = ["boom"] ∧
    wrapTaskWithIndex (PoolState.mk0 2 .eager) 1 (.fails "boom") =
      (Settle.error "boom", PoolState.mk0 2 .eager) := by
  refine ⟨(C3_wrap_contract.2.1 _ 0 "boom" rfl).1, ?_, C3_wrap_contract.2.2 _ 1 "boom" rfl⟩
  have h := (C3_wrap_contract.2.1 (PoolState.mk0 2 .lazy) 0 "boom" rfl).2
  simpa using h

/-- C5: `getErrors` is a three-way case split: eager strategy returns `[]` with
the diagnostic warning, regardless of the closed flag; lazy strategy returns
the sink's contents once the pool is closed, and throws the usage `EvalError`
while it is not. -/
theorem C5_getErrors_cases :
    (∀ s : PoolState, s.errorStrategy = .eager → getErrors s = .ret true []) ∧
    (∀ s : PoolState, s.errorStrategy = .lazy → s.closed = true →
      getErrors s = .ret false s.errors) ∧
    (∀ s : PoolState, s.errorStrategy = .lazy → s.closed = false →
      getErrors s =
        .usageError "Cannot sum up errors in unclosed pools. Call close() first.") := by
  refine ⟨fun s hstr => ?_, fun s hstr hc => ?_, fun s hstr hc => ?_⟩
  · simp [getErrors, hstr]
  · simp [getErrors, hstr, hc]
  · simp [getErrors, hstr, hc]

/-- Witness for C5: a concrete eager pool (still unclosed), a closed lazy pool,
and an unclosed lazy pool. -/
theorem C5_getErrors_cases_witness :
    getErrors (PoolState.mk0 3 .eager) = .ret true [] ∧
    getErrors { PoolState.mk0 3 .lazy with errors := ["boom"], closed := true } =
      .ret false ["boom"] ∧
    getErrors (PoolState.mk0 3 .lazy) =
      .usageError "Cannot sum up errors in unclosed pools. Call close() first." :=
  ⟨C5_getErrors_cases.1 _ rfl, C5_getErrors_cases.2.1 _ rfl rfl,
   C5_getErrors_cases.2.2 _ rfl rfl⟩

/-- C1: the submission protocol.  (i) On a pool whose slot array holds fewer
than `maxWorkers` handles, `submit` does not consult the `Promise.any` race at
all (it returns without suspending: the result is independent of the race's
settlement), and (ii) it appends the freshly wrapped handle at index equal to
the current length, leaving existing slots untouched.  (iii) On a full pool,
given the slot-index invariant, the race's winner is a handle that settled
successfully at its own slot index `w`, and `submit` overwrites exactly slot
`w` with a freshly wrapped handle for the new operation. -/
theorem C1_submit_protocol :
    (∀ (s : PoolState) (o : TaskOutcome) (r₁ r₂ : Settle Nat),
      s.pool.length < s.maxWorkers → submit s o r₁ = submit s o r₂) ∧
    (∀ (s : PoolState) (o : TaskOutcome) (r : Settle Nat),
      s.pool.length < s.maxWorkers →
      ∃ s₁, submit s o r = .ok s₁ ∧
        s₁.pool.length = s.pool.length + 1 ∧
        s₁.pool[s.pool.length]? = some (wrapTaskWithIndex s s.pool.length o).1 ∧
        ∀ j, j < s.pool.length → s₁.pool[j]? = s.pool[j]?) ∧
    (∀ (s : PoolState) (o : TaskOutcome) (r : Settle Nat) (w : Nat),
      ¬ s.pool.length < s.maxWorkers → poolInv s → AnyResult s.pool r →
      r = .value w →
      s.pool[w]? = some (Settle.value w) ∧
      ∃ s₁, submit s o r = .ok s₁ ∧
        s₁.pool = s.pool.set w (wrapTaskWithIndex s w o).1 ∧
        s₁.pool.length = s.pool.length ∧
        ∀ j, j ≠ w → s₁.pool[j]? = s.pool[j]?) := by
  refine ⟨fun s o r₁ r₂ h => ?_, fun s o r h => ?_, fun s o r w h hinv hany hr => ?_⟩
  · simp only [submit, getVacantIndex, if_pos h]
  · refine ⟨_, submit_vacant o r h, ?_, ?_, fun j hj => ?_⟩
    · simp
    · exact List.getElem?_concat_length ..
    · exact List.getElem?_append_left hj
  · subst hr
    have hw : s.pool[w]? = some (Settle.value w) := by
      cases hany with
      | fulfilled hi =>
        rename_i i
        have h2 := hinv i w hi
        subst h2
        exact hi
    refine ⟨hw, _, submit_full o w h, rfl, by simp, fun j hj => ?_⟩
    show (s.pool.set w (wrapTaskWithIndex s w o).1)[j]? = s.pool[j]?
    exact List.getElem?_set_ne (Ne.symm hj)

/-- Lemma: `submit` never resets the closed flag. -/
theorem submit_preserves_closed {s s₁ : PoolState} {o : TaskOutcome} {r : Settle Nat}
    (h : submit s o r = .ok s₁) : s₁.closed = s.closed := by
  by_cases hv : s.pool.length < s.maxWorkers
  · rw [submit_vacant o r hv] at h
    cases h
    exact wrap_preserves_closed ..
  · rcases r with w | e
    · rw [submit_full o w hv] at h
      cases h
      exact wrap_preserves_closed ..
    · rw [submit_full_error o e hv] at h
      cases h

/-- Submitting a succeeding operation leaves the timer counter and the running
flag untouched (the success callback of the wrapper has no side effect). -/
theorem submit_succeeds_counters {s s₁ : PoolState} {r : Settle Nat}
    (h : submit s .succeeds r = .ok s₁) :
    s₁.counter = s.counter ∧ s₁.count = s.count := by
  by_cases hv : s.pool.length < s.maxWorkers
  · rw [submit_vacant .succeeds r hv] at h
    cases h
    exact ⟨rfl, rfl⟩
  · rcases r with w | e
    · rw [submit_full .succeeds w hv] at h
      cases h
      exact ⟨rfl, rfl⟩
    · rw [submit_full_error .succeeds e hv] at h
      cases h

/-- When the convergence loop of `ConcreteAll` resolves, the scan over the view
it resolved on found zero pending entries. -/
theorem concreteAllRun_resolves :
    ∀ {views : List (List (PromiseView Nat))} {v : List (PromiseView Nat)},
      concreteAllRun views = some v → hasPendingView v = false := by
  intro views
  induction views with
  | nil => intro v h; cases h
  | cons v0 vs ih =>
    intro v h
    by_cases hp : hasPendingView v0
    · simp only [concreteAllRun, if_pos hp] at h
      exact ih h
    · simp only [concreteAllRun, if_neg hp] at h
      cases h
      exact Bool.eq_false_iff.mpr hp

/-- C2: for every sequence of `submit` calls on a pool constructed with
positive `maxWorkers` (starting from any state within capacity, in particular
the fresh empty pool), the slot array's length never exceeds `maxWorkers`; and
a submission on a full pool replaces one existing slot in place (`set`) and
never appends, keeping the length at `maxWorkers`. -/
theorem C2_capacity_invariant :
    (∀ (calls : List (TaskOutcome × Settle Nat)) (s s₁ : PoolState),
      0 < s.maxWorkers → s.pool.length ≤ s.maxWorkers →
      runSubmits s calls = .ok s₁ →
      s₁.maxWorkers = s.maxWorkers ∧ s₁.pool.length ≤ s.maxWorkers) ∧
    (∀ (s : PoolState) (o : TaskOutcome) (r : Settle Nat) (s₁ : PoolState),
      s.pool.length = s.maxWorkers → submit s o r = .ok s₁ →
      ∃ w, r = Settle.value w ∧
        s₁.pool = s.pool.set w (wrapTaskWithIndex s w o).1 ∧
        s₁.pool.length = s.maxWorkers) := by
  constructor
  · intro calls
    induction calls with
    | nil =>
      intro s s₁ hpos hle hrun
      simp only [runSubmits] at hrun
      cases hrun
      exact ⟨rfl, hle⟩
    | cons c rest ih =>
      intro s s₁ hpos hle hrun
      obtain ⟨o, r⟩ := c
      cases hsub : submit s o r with
      | ok s₂ =>
        simp only [runSubmits, hsub] at hrun
        obtain ⟨hmax, hlen⟩ := submit_ok_invariant hsub hle
        have h := ih s₂ s₁ (by omega) (by omega) hrun
        exact ⟨by omega, by omega⟩
      | error e =>
        simp only [runSubmits, hsub] at hrun
        cases hrun
  · intro s o r s₁ hfull hsub
    have hnv : ¬ s.pool.length < s.maxWorkers := by omega
    rcases r with w | e
    · rw [submit_full o w hnv] at hsub
      cases hsub
      exact ⟨w, rfl, rfl, by simp [hfull]⟩
    · rw [submit_full_error o e hnv] at hsub
      cases hsub

/-- Witness for C2: two successful submissions into a one-slot lazy pool — the
second call hits a full pool, replaces slot 0 in place and the length stays
1. -/
theorem C2_capacity_invariant_witness :
    (∃ s₁, runSubmits (PoolState.mk0 1 .lazy)
        [(TaskOutcome.succeeds, Settle.value 0), (TaskOutcome.succeeds, Settle.value 0)] =
        .ok s₁) →
    (∀ s₁, runSubmits (PoolState.mk0 1 .lazy)
        [(TaskOutcome.succeeds, Settle.value 0), (TaskOutcome.succeeds, Settle.value 0)] =
        .ok s₁ →
      s₁.maxWorkers = 1 ∧ s₁.pool.length ≤ 1) := by
  intro _ s₁ h
  exact C2_capacity_invariant.1 _ _ s₁ (by decide) (by decide) h

/-- C6: under the eager strategy, a failed handle re-raises (its settlement is
a rejection), and `Promise.any` fulfils only with the value of a fulfilled
member, so such a handle cannot win the slot-freeing race; when every currently
occupied slot of a full pool has failed, the race itself rejects with the
`AggregateError`, which propagates out of `submit` instead of yielding a
winning slot index. -/
theorem C6_eager_starvation :
    (∀ (s : PoolState) (i : Nat) (reason : Err), s.errorStrategy = .eager →
      (wrapTaskWithIndex s i (.fails reason)).1 = Settle.error reason) ∧
    (∀ (pool : List (Settle Nat)) (v : Nat), AnyResult pool (Settle.value v) →
      ∃ i : Nat, pool[i]? = some (Settle.value v)) ∧
    (∀ (s : PoolState) (o : TaskOutcome) (r : Settle Nat),
      ¬ s.pool.length < s.maxWorkers →
      (∀ x ∈ s.pool, ∀ v : Nat, x ≠ Settle.value v) →
      AnyResult s.pool r →
      submit s o r = .error aggregateError) := by
  refine ⟨fun s i reason hstr => ?_, fun pool v hany => ?_, fun s o r hfull hall hany => ?_⟩
  · simp only [wrapTaskWithIndex, hstr]
  · cases hany with
    | fulfilled hi => rename_i i; exact ⟨i, hi⟩
  · cases hany with
    | fulfilled hi =>
      rename_i i v
      exact absurd rfl (hall _ (List.getElem?_mem hi) v)
    | allRejected h =>
      exact submit_full_error o aggregateError hfull

/-- Witness for C6: a one-slot eager pool whose only handle has failed; the
race over it can only reject, and `submit` propagates the `AggregateError`. -/
theorem C6_eager_starvation_witness :
    (wrapTaskWithIndex (PoolState.mk0 1 .eager) 0 (.fails "boom")).1 = Settle.error "boom" ∧
    submit { PoolState.mk0 1 .eager with pool := [Settle.error "boom"] }
        .succeeds (Settle.error aggregateError) = .error aggregateError := by
  constructor
  · exact C6_eager_starvation.1 _ 0 "boom" rfl
  · refine C6_eager_starvation.2.2 _ .succeeds _ (by decide) ?_ ?_
    · intro x hx v
      simp only [List.mem_singleton] at hx
      subst hx
      exact fun hc => by cases hc
    · exact AnyResult.allRejected (by
        intro x hx v
        simp only [List.mem_singleton] at hx
        subst hx
        exact fun hc => by cases hc)

/-- Witness for C1: the first submission into a fresh two-slot pool appends at
index 0 without consulting the race; a full one-slot pool whose handle resolved
to 0 has exactly slot 0 replaced. -/
theorem C1_submit_protocol_witness :
    (submit (PoolState.mk0 2 .lazy) .succeeds (Settle.value 7) =
      submit (PoolState.mk0 2 .lazy) .succeeds (Settle.error "x")) ∧
    (∃ s₁, submit (PoolState.mk0 2 .lazy) .succeeds (Settle.value 7) = .ok s₁ ∧
      s₁.pool.length = (PoolState.mk0 2 .lazy).pool.length + 1 ∧
      s₁.pool[(PoolState.mk0 2 .lazy).pool.length]? =
        some (wrapTaskWithIndex (PoolState.mk0 2 .lazy)
          (PoolState.mk0 2 .lazy).pool.length .succeeds).1 ∧
      ∀ j, j < (PoolState.mk0 2 .lazy).pool.length →
        s₁.pool[j]? = (PoolState.mk0 2 .lazy).pool[j]?) ∧
    ({ PoolState.mk0 1 .lazy with pool := [Settle.value 0] } : PoolState).pool[0]? =
        some (Settle.value 0) ∧
    (∃ s₁,
      submit { PoolState.mk0 1 .lazy with pool := [Settle.value 0] } .succeeds
          (Settle.value 0) = .ok s₁ ∧
      s₁.pool = ({ PoolState.mk0 1 .lazy with pool := [Settle.value 0] } :
          PoolState).pool.set 0
          (wrapTaskWithIndex { PoolState.mk0 1 .lazy with pool := [Settle.value 0] }
            0 .succeeds).1 ∧
      s₁.pool.length =
        ({ PoolState.mk0 1 .lazy with pool := [Settle.value 0] } : PoolState).pool.length ∧
      ∀ j, j ≠ 0 → s₁.pool[j]? =
        ({ PoolState.mk0 1 .lazy with pool := [Settle.value 0] } :
          PoolState).pool[j]?) := by
  have hinv : poolInv { PoolState.mk0 1 .lazy with pool := [Settle.value 0] } := by
    intro i v h
    match i with
    | 0 => simp at h; omega
    | n + 1 => simp at h
  have hfull := C1_submit_protocol.2.2
    { PoolState.mk0 1 .lazy with pool := [Settle.value 0] } .succeeds
    (Settle.value 0) 0 (by decide) hinv (AnyResult.fulfilled (i := 0) rfl) rfl
  exact ⟨C1_submit_protocol.1 _ .succeeds _ _ (by decide),
    C1_submit_protocol.2.1 _ .succeeds _ (by decide), hfull.1, hfull.2⟩

/-- Across a run of submissions of succeeding operations, the counter and the
timer-running flag are unchanged. -/
theorem runSubmits_succeeds_counters :
    ∀ (calls : List (TaskOutcome × Settle Nat)) {s s₁ : PoolState},
      (∀ c ∈ calls, c.1 = TaskOutcome.succeeds) →
      runSubmits s calls = .ok s₁ →
      s₁.counter = s.counter ∧ s₁.count = s.count := by
  intro calls
  induction calls with
  | nil =>
    intro s s₁ _ h
    simp only [runSubmits] at h
    cases h
    exact ⟨rfl, rfl⟩
  | cons c rest ih =>
    intro s s₁ hall h
    obtain ⟨o, r⟩ := c
    have ho : o = TaskOutcome.succeeds := hall (o, r) (List.mem_cons_self ..)
    subst ho
    cases hsub : submit s .succeeds r with
    | ok s₂ =>
      simp only [runSubmits, hsub] at h
      have h1 := submit_succeeds_counters hsub
      have h2 := ih (fun c hc => hall c (List.mem_cons_of_mem _ hc)) h
      exact ⟨h2.1.trans h1.1, h2.2.trans h1.2⟩
    | error e =>
      simp only [runSubmits, hsub] at h
      cases h

/-- C9: the completed-task counter is incremented only inside the failure
branch of the task wrapper (a lazy failure with the timer running), never on a
successful settlement — under eager strategy the rethrow skips the increment
too — so in a run where every submitted task succeeds the counter stays put,
and from a freshly started timer `endTimer` reports a flow of 0. -/
theorem C9_counter_failure_only :
    (∀ (s : PoolState) (i : Nat),
      (wrapTaskWithIndex s i .succeeds).2.counter = s.counter) ∧
    (∀ (s : PoolState) (i : Nat) (reason : Err), s.errorStrategy = .eager →
      (wrapTaskWithIndex s i (.fails reason)).2.counter = s.counter) ∧
    (∀ (s : PoolState) (i : Nat) (reason : Err), s.errorStrategy = .lazy →
      s.count = true →
      (wrapTaskWithIndex s i (.fails reason)).2.counter = s.counter + 1) ∧
    (∀ (calls : List (TaskOutcome × Settle Nat)) (s s₁ : PoolState),
      (∀ c ∈ calls, c.1 = TaskOutcome.succeeds) →
      runSubmits s calls = .ok s₁ →
      s₁.counter = s.counter ∧ s₁.count = s.count) ∧
    (∀ (calls : List (TaskOutcome × Settle Nat)) (s s₁ : PoolState),
      (∀ c ∈ calls, c.1 = TaskOutcome.succeeds) → s.counter = 0 → s.count = true →
      runSubmits s calls = .ok s₁ →
      endTimer s₁ = .ok ({ s₁ with start := none, count := false, counter := 0 }, 0)) := by
  refine ⟨fun s i => rfl, fun s i reason hstr => ?_, fun s i reason hstr hcnt => ?_,
    fun calls s s₁ hall h => runSubmits_succeeds_counters calls hall h,
    fun calls s s₁ hall hzero hcnt h => ?_⟩
  · simp only [wrapTaskWithIndex, hstr]
  · simp [wrapTaskWithIndex, hstr, hcnt]
  · obtain ⟨h1, h2⟩ := runSubmits_succeeds_counters calls hall h
    have hc1 : s₁.count = true := h2.trans hcnt
    have hz1 : s₁.counter = 0 := h1.trans hzero
    unfold endTimer
    rw [if_neg (by simp [hc1]), hz1]

/-- Witness for C9: submit one succeeding task after starting the timer; the
reported flow is 0. -/
theorem C9_counter_failure_only_witness :
    ∃ s₁, runSubmits ((startTimer (PoolState.mk0 1 .lazy) 5).1)
        [(TaskOutcome.succeeds, Settle.value 0)] = .ok s₁ ∧
      endTimer s₁ = .ok ({ s₁ with start := none, count := false, counter := 0 }, 0) := by
  refine ⟨_, rfl, ?_⟩
  exact C9_counter_failure_only.2.2.2.2 [(TaskOutcome.succeeds, Settle.value 0)]
    ((startTimer (PoolState.mk0 1 .lazy) 5).1) _ (by decide) rfl rfl rfl

/-- C4: `close` resolves only after a full scan of the current view of the
(possibly mutated between barrier waits) slot array finds zero pending handles,
and upon resolving sets the closed flag to `true`; the flag is monotonic — no
other operation of the pool (`submit`, the wrapper's settlement side effects,
`startTimer`, `endTimer`) ever changes it, so it goes false→true exactly once,
at `close`. -/
theorem C4_close_monotone :
    (∀ (views : List (List (PromiseView Nat))) (v : List (PromiseView Nat)),
      concreteAllRun views = some v → hasPendingView v = false) ∧
    (∀ (s : PoolState) (views : List (List (PromiseView Nat))) (s₁ : PoolState),
      close s views = some s₁ →
      s₁.closed = true ∧
      ∃ v, concreteAllRun views = some v ∧ hasPendingView v = false) ∧
    (∀ (s s₁ : PoolState) (o : TaskOutcome) (r : Settle Nat),
      submit s o r = .ok s₁ → s₁.closed = s.closed) ∧
    (∀ (s : PoolState) (i : Nat) (o : TaskOutcome),
      (wrapTaskWithIndex s i o).2.closed = s.closed) ∧
    (∀ (s : PoolState) (now : Nat), (startTimer s now).1.closed = s.closed) ∧
    (∀ (s s₁ : PoolState) (n : Nat), endTimer s = .ok (s₁, n) → s₁.closed = s.closed) := by
  refine ⟨fun views v h => concreteAllRun_resolves h, fun s views s₁ h => ?_,
    fun s s₁ o r h => submit_preserves_closed h, fun s i o => wrap_preserves_closed ..,
    fun s now => rfl, fun s s₁ n h => ?_⟩
  · cases hc : concreteAllRun views with
    | none =>
      unfold close at h
      rw [hc] at h
      cases h
    | some v =>
      unfold close at h
      rw [hc] at h
      cases h
      exact ⟨rfl, v, rfl, concreteAllRun_resolves hc⟩
  · unfold endTimer at h
    by_cases hcnt : s.count = false
    · rw [if_pos hcnt] at h
      cases h
    · rw [if_neg hcnt] at h
      cases h
      rfl

/-- Witness for C4: a run of `ConcreteAll` that scans a pending view, waits,
and resolves on a settled view; the pool it closes has its flag set; a concrete
`submit` and a concrete `endTimer` leave the flag where it was. -/
theorem C4_close_monotone_witness :
    hasPendingView [some (Settle.value 0)] = false ∧
    ({ PoolState.mk0 1 .lazy with closed := true } : PoolState).closed = true ∧
    ({ PoolState.mk0 2 .lazy with pool := [Settle.value 0] } : PoolState).closed =
      (PoolState.mk0 2 .lazy).closed ∧
    ({ (startTimer (PoolState.mk0 2 .lazy) 5).1 with
        start := none, count := false, counter := 0 } : PoolState).closed =
      ((startTimer (PoolState.mk0 2 .lazy) 5).1).closed := by
  refine ⟨?_, ?_, ?_, ?_⟩
  · exact C4_close_monotone.1 [[(none : PromiseView Nat)], [some (Settle.value 0)]] _
      (by decide)
  · exact (C4_close_monotone.2.1 (PoolState.mk0 1 .lazy)
      [[(none : PromiseView Nat)], [some (Settle.value 0)]] _ (by decide)).1
  · exact C4_close_monotone.2.2.1 (PoolState.mk0 2 .lazy) _ .succeeds
      (Settle.value 0) rfl
  · exact C4_close_monotone.2.2.2.2.2 ((startTimer (PoolState.mk0 2 .lazy) 5).1) _ 0 rfl

/-- A tick never changes the number of slots: settlement replaces a slot's
contents in place. -/
theorem tickPool_length {T : Type} :
    ∀ pool : List (SlotSim T), (tickPool pool).1.length = pool.length := by
  intro pool
  induction pool with
  | nil => rfl
  | cons s rest ih =>
    cases s with
    | pending r pushes idx =>
      by_cases hr : r ≤ 1 <;> simp [tickPool, hr, ih]
    | settled x => simp [tickPool, ih]

/-- When the pool reports no work in flight, the convergence wait of `close`
resolves on its first scan and just sets the closed flag. -/
theorem closeSim_not_working {T : Type} (fuel : Nat) (st : WQState T)
    (h : isWorkingSim st.pool = false) :
    closeSim fuel st = some { st with closed := true } := by
  cases fuel <;> simp [closeSim, h]

/-- Whenever `work`'s loop returns, the backlog is empty, the pool reports no
pending slot, and the pool has been closed. -/
theorem workLoop_post {T : Type} (job : T → Nat × List T) (falsy : T → Bool)
    (anyFuel : Nat) :
    ∀ (fuel : Nat) (st : WQState T) (p : Nat) (final : WQState T) (n : Nat),
      workLoop job falsy anyFuel fuel st p = some (final, n) →
      final.workList = [] ∧ isWorkingSim final.pool = false ∧ final.closed = true := by
  intro fuel
  induction fuel with
  | zero =>
    intro st p final n h
    cases h
  | succ f ih =>
    intro st p final n h
    by_cases hg : st.workList.length > 0 ∨ isWorkingSim st.pool
    · simp only [workLoop, if_pos hg] at h
      cases hb : workBody job falsy anyFuel st with
      | none => rw [hb] at h; cases h
      | some r =>
        obtain ⟨st₁, submitted⟩ := r
        rw [hb] at h
        exact ih st₁ _ final n h
    · simp only [workLoop, if_neg hg] at h
      push_neg at hg
      obtain ⟨hlen, hwork⟩ := hg
      have hwork' : isWorkingSim st.pool = false := by
        revert hwork
        cases isWorkingSim st.pool <;> simp
      have hwl : st.workList = [] := by
        cases hl : st.workList with
        | nil => rfl
        | cons a as => rw [hl] at hlen; simp at hlen
      rw [closeSim_not_working anyFuel st hwork'] at h
      cases h
      exact ⟨hwl, hwork', rfl⟩

/-- The loop body pops the most recently pushed item: with `x` the last pushed
element, a truthy `x` on a filling pool is submitted and the backlog shrinks to
`l`. -/
theorem workBody_pops_last {T : Type} (job : T → Nat × List T) (falsy : T → Bool)
    (anyFuel : Nat) (st : WQState T) (l : List T) (x : T)
    (hwl : st.workList = l ++ [x]) (hf : falsy x = false)
    (hvac : st.pool.length < st.maxWorkers) :
    workBody job falsy anyFuel st =
      some ({ st with workList := l,
                      pool := st.pool ++
                        [.pending (job x).1 (job x).2 st.pool.length] },
        true) := by
  unfold workBody
  rw [hwl, List.getLast?_concat, List.dropLast_concat]
  simp only [hf, Bool.false_eq_true, if_false, if_pos hvac]

/-- C7: the drainer's loop runs while the backlog is nonempty or `isWorking()`
reports true; when both are false it stops, closing the pool before returning,
so any terminating run ends with an empty backlog, no pending slot and a closed
pool.  The body pops items last-in-first-out.  In the scenario
`WorkList(maxWorkers=1, items=[A])` where processing `A` pushes `B` and
processing `B` pushes nothing, `work()` submits exactly 2 items and
terminates. -/
theorem C7_worklist_drainer :
    (∀ (T : Type) (job : T → Nat × List T) (falsy : T → Bool)
       (anyFuel fuel : Nat) (st : WQState T) (p : Nat) (final : WQState T) (n : Nat),
      workLoop job falsy anyFuel fuel st p = some (final, n) →
      final.workList = [] ∧ isWorkingSim final.pool = false ∧ final.closed = true) ∧
    (∀ (T : Type) (job : T → Nat × List T) (falsy : T → Bool)
       (anyFuel : Nat) (st : WQState T) (l : List T) (x : T),
      st.workList = l ++ [x] → falsy x = false → st.pool.length < st.maxWorkers →
      workBody job falsy anyFuel st =
        some ({ st with workList := l,
                        pool := st.pool ++
                          [.pending (job x).1 (job x).2 st.pool.length] },
          true)) ∧
    workLoop scenarioJob scenarioFalsy 5 10 (WQState.init 1 [ScItem.A]) 0 =
      some ({ workList := [], pool := [SlotSim.settled (Settle.value 0)],
              maxWorkers := 1, closed := true }, 2) := by
  refine ⟨fun T job falsy anyFuel fuel st p final n h =>
      workLoop_post job falsy anyFuel fuel st p final n h,
    fun T job falsy anyFuel st l x hwl hf hvac =>
      workBody_pops_last job falsy anyFuel st l x hwl hf hvac, ?_⟩
  decide

/-- Witness for C7: the terminating scenario run itself discharges the
postcondition hypotheses, and the first iteration pops `A` (the last pushed
item). -/
theorem C7_worklist_drainer_witness :
    (({ workList := [], pool := [SlotSim.settled (Settle.value 0)],
        maxWorkers := 1, closed := true } : WQState ScItem).workList = [] ∧
      isWorkingSim
        ({ workList := [], pool := [SlotSim.settled (Settle.value 0)],
           maxWorkers := 1, closed := true } : WQState ScItem).pool = false ∧
      ({ workList := [], pool := [SlotSim.settled (Settle.value 0)],
         maxWorkers := 1, closed := true } : WQState ScItem).closed = true) ∧
    workBody scenarioJob scenarioFalsy 5 (WQState.init 1 [ScItem.A]) =
      some ({ workList := [], pool := [SlotSim.pending 1 [ScItem.B] 0],
              maxWorkers := 1 }, true) := by
  constructor
  · exact C7_worklist_drainer.1 ScItem scenarioJob scenarioFalsy 5 10
      (WQState.init 1 [ScItem.A]) 0 _ 2 (by decide)
  · exact C7_worklist_drainer.2.1 ScItem scenarioJob scenarioFalsy 5
      (WQState.init 1 [ScItem.A]) [] ScItem.A rfl rfl (by decide)

/-- C10: when the most recently pushed backlog item is falsy, the loop body
pops it off the backlog but never submits it: the iteration takes the
sleep-and-retry path (`submitted = false`), the item is silently discarded, and
no slot is added to or replaced in the pool (the pool only advances by the
sleep's timer tick, keeping its length). -/
theorem C10_falsy_item_discarded :
    ∀ (T : Type) (job : T → Nat × List T) (falsy : T → Bool)
      (anyFuel : Nat) (st : WQState T) (l : List T) (x : T),
      st.workList = l ++ [x] → falsy x = true →
      workBody job falsy anyFuel st = some (tick { st with workList := l }, false) ∧
      (tick { st with workList := l }).pool.length = st.pool.length := by
  intro T job falsy anyFuel st l x hwl hf
  constructor
  · unfold workBody
    rw [hwl, List.getLast?_concat, List.dropLast_concat]
    simp only [hf, if_true]
  · show (tickPool st.pool).1.length = st.pool.length
    exact tickPool_length st.pool

/-- Witness for C10: backlog `[5, 0]` over numbers with JavaScript falsiness of
`0`; the iteration pops `0`, submits nothing, and the pool stays empty. -/
theorem C10_falsy_item_discarded_witness :
    workBody (fun _ : Nat => (1, ([] : List Nat))) (fun n => n == 0) 3
        { workList := [5, 0], pool := [], maxWorkers := 1 } =
      some (tick { workList := [5], pool := ([] : List (SlotSim Nat)),
                   maxWorkers := 1 }, false) ∧
    (tick { workList := [5], pool := ([] : List (SlotSim Nat)),
            maxWorkers := 1 }).pool.length = 0 :=
  C10_falsy_item_discarded Nat (fun _ => (1, [])) (fun n => n == 0) 3
    { workList := [5, 0], pool := [], maxWorkers := 1 } [5] 0 rfl rfl
